import Mathlib

/-!
Verification of the `colored` terminal-styling library.

Strings are modelled as `List Char` (the byte-level UTF-8 representation of
Rust's `str` is abstracted to its character sequence; all string constants
involved are ASCII, where the two coincide).  The `u8` machine integers of the
style bitset and of color channels are modelled as `Nat`; the only arithmetic
performed on them (bitwise or, bitwise and, a 4-bit left shift of a value
below 16) never overflows 8 bits, and the one shift is followed by an explicit
reduction mod 256 mirroring the `u8` semantics.

The process-global colorization policy (`SHOULD_COLORIZE`) consulted by
`has_colors` is modelled by threading an explicit `colorize : Bool` parameter
through the rendering functions, and the environment read by
`ShouldColorize::from_env` is passed as explicit `Option (List Char)`
arguments together with the tty check's result.
-/

set_option maxRecDepth 8192

namespace Colored

/-! ### src/style.rs -/

def CLEARV : Nat := 0x00

def BOLD : Nat := 0x01

def UNDERLINE : Nat := 0x02

def REVERSED : Nat := 0x04

def ITALIC : Nat := 0x08

def BLINK : Nat := 0x10

def HIDDEN : Nat := 0x20

def DIMMED : Nat := 0x40

def STRIKETHROUGH : Nat := 0x80

inductive Styles where
  | Clear
  | Bold
  | Dimmed
  | Underline
  | Reversed
  | Italic
  | Blink
  | Hidden
  | Strikethrough
  deriving DecidableEq

def Styles.to_str : Styles → List Char
  | .Clear => []
  | .Bold => ['1']
  | .Dimmed => ['2']
  | .Italic => ['3']
  | .Underline => ['4']
  | .Blink => ['5']
  | .Reversed => ['7']
  | .Hidden => ['8']
  | .Strikethrough => ['9']

def Styles.to_u8 : Styles → Nat
  | .Clear => CLEARV
  | .Bold => BOLD
  | .Dimmed => DIMMED
  | .Italic => ITALIC
  | .Underline => UNDERLINE
  | .Blink => BLINK
  | .Reversed => REVERSED
  | .Hidden => HIDDEN
  | .Strikethrough => STRIKETHROUGH

def STYLES : List (Nat × Styles) :=
  [(BOLD, .Bold), (DIMMED, .Dimmed), (UNDERLINE, .Underline), (REVERSED, .Reversed),
   (ITALIC, .Italic), (BLINK, .Blink), (HIDDEN, .Hidden), (STRIKETHROUGH, .Strikethrough)]

def Styles.from_u8 (u : Nat) : Option (List Styles) :=
  if u = CLEARV then none
  else
    let res := (STYLES.filter (fun p => 0 != (u &&& p.1))).map Prod.snd
    if res.isEmpty then none else some res

structure Style where
  bits : Nat
  deriving DecidableEq

def CLEAR : Style := ⟨CLEARV⟩

def Style.contains (s : Style) (style : Styles) : Bool :=
  s.bits &&& style.to_u8 == style.to_u8

def Style.to_str (s : Style) : List Char :=
  List.intercalate [';'] (((Styles.from_u8 s.bits).getD []).map Styles.to_str)

def Style.add (s : Style) (two : Styles) : Style :=
  ⟨s.bits ||| two.to_u8⟩

/-! ### src/color.rs -/

inductive Color where
  | Black
  | Red
  | Green
  | Yellow
  | Blue
  | Magenta
  | Cyan
  | White
  | BrightBlack
  | BrightRed
  | BrightGreen
  | BrightYellow
  | BrightBlue
  | BrightMagenta
  | BrightCyan
  | BrightWhite
  | TrueColor (r g b : Nat)
  deriving DecidableEq

/-- Decimal rendering of a number, as done by Rust's `format!("{r}")`. -/
def natDecimal (n : Nat) : List Char := Nat.toDigits 10 n

def Color.to_fg_str : Color → List Char
  | .Black => "30".toList
  | .Red => "31".toList
  | .Green => "32".toList
  | .Yellow => "33".toList
  | .Blue => "34".toList
  | .Magenta => "35".toList
  | .Cyan => "36".toList
  | .White => "37".toList
  | .BrightBlack => "90".toList
  | .BrightRed => "91".toList
  | .BrightGreen => "92".toList
  | .BrightYellow => "93".toList
  | .BrightBlue => "94".toList
  | .BrightMagenta => "95".toList
  | .BrightCyan => "96".toList
  | .BrightWhite => "97".toList
  | .TrueColor r g b =>
      "38;2;".toList ++ natDecimal r ++ [';'] ++ natDecimal g ++ [';'] ++ natDecimal b

def Color.to_bg_str : Color → List Char
  | .Black => "40".toList
  | .Red => "41".toList
  | .Green => "42".toList
  | .Yellow => "43".toList
  | .Blue => "44".toList
  | .Magenta => "45".toList
  | .Cyan => "46".toList
  | .White => "47".toList
  | .BrightBlack => "100".toList
  | .BrightRed => "101".toList
  | .BrightGreen => "102".toList
  | .BrightYellow => "103".toList
  | .BrightBlue => "104".toList
  | .BrightMagenta => "105".toList
  | .BrightCyan => "106".toList
  | .BrightWhite => "107".toList
  | .TrueColor r g b =>
      "48;2;".toList ++ natDecimal r ++ [';'] ++ natDecimal g ++ [';'] ++ natDecimal b

def Color.to_hex_array : Color → List Nat
  | .Black => [0x00, 0x00, 0x00]
  | .Red => [0xFF, 0x00, 0x00]
  | .Green => [0x00, 0x80, 0x00]
  | .Blue => [0x00, 0x00, 0xFF]
  | .Yellow => [0xFF, 0xFF, 0x00]
  | .Magenta => [0xFF, 0x00, 0xFF]
  | .Cyan => [0x00, 0xFF, 0xFF]
  | .White => [0xFF, 0xFF, 0xFF]
  | .BrightWhite => [0xFF, 0xFF, 0xFF]
  | .BrightBlack => [0x22, 0x20, 0x24]
  | .BrightRed => [0xFF, 0x16, 0x0C]
  | .BrightGreen => [0x32, 0xCD, 0x32]
  | .BrightBlue => [0xAD, 0xD8, 0xE6]
  | .BrightYellow => [0xFF, 0xFF, 0xE0]
  | .BrightMagenta => [0xFF, 0x00, 0xCD]
  | .BrightCyan => [0xE0, 0xFF, 0xFF]
  | .TrueColor r g b => [r, g, b]

/-- Lowercase hex digit character for a value below 16, as produced by the
`{x:02x}` format used in `Color::to_hex`. -/
def hexDigitChar (d : Nat) : Char :=
  Char.ofNat (if d < 10 then 48 + d else 87 + d)

/-- Two lowercase hex digits of one byte, as produced by `write!(s, "{x:02x}")`. -/
def hexByte (x : Nat) : List Char := [hexDigitChar (x / 16), hexDigitChar (x % 16)]

def Color.to_hex (c : Color) : List Char :=
  c.to_hex_array.foldl (fun s x => s ++ hexByte x) []

def hex_val (ch : Char) : Nat :=
  if 48 ≤ ch.toNat ∧ ch.toNat ≤ 57 then ch.toNat - 48
  else if 65 ≤ ch.toNat ∧ ch.toNat ≤ 70 then ch.toNat - 55
  else if 97 ≤ ch.toNat ∧ ch.toNat ≤ 102 then ch.toNat - 87
  else 0

/-- The body is `result |= hex_val(ch.0); result <<= 4; result |= hex_val(ch.1)`
on a `u8`; the shift is reduced mod 256 to mirror the `u8` truncation (which
never fires, since `hex_val` is below 16). -/
def hex_chars_to_u8 (c0 c1 : Char) : Nat :=
  ((hex_val c0 <<< 4) % 256) ||| hex_val c1

/-- The source iterates `as_bytes().chunks(2)` and reads three full pairs; its
only caller passes exactly six characters, where this equals the first three
chunks. -/
def parse_hex : List Char → Option (Nat × Nat × Nat)
  | c0 :: c1 :: c2 :: c3 :: c4 :: c5 :: _ =>
      some (hex_chars_to_u8 c0 c1, hex_chars_to_u8 c2 c3, hex_chars_to_u8 c4 c5)
  | _ => none

/-- Suffix of the `InvalidInput` error message built in `Color::from_hex`. -/
def INVALID_COLOR_MSG : List Char := " is an invalid color and is unable to be parsed".toList

/-- The `if_6!` macro of `Color::from_hex`. -/
def if_6 (c : List Char) : Option (List Char) :=
  if c.length = 6 then some c else none

def Color.from_hex (color : List Char) : Except (List Char) Color :=
  let result : Option (List Char) :=
    if (['0', 'x'] : List Char).isPrefixOf color then if_6 (color.drop 2)
    else if (['#'] : List Char).isPrefixOf color then if_6 (color.drop 1)
    else if_6 color
  match result with
  | some c =>
      match parse_hex c with
      | some (r, g, b) => .ok (.TrueColor r g b)
      | none => .error (color ++ INVALID_COLOR_MSG)
  | none => .error (color ++ INVALID_COLOR_MSG)

/-- Rust `str::to_lowercase` restricted to its ASCII behaviour. -/
def toLowercase (s : List Char) : List Char := s.map Char.toLower

/-- Rust `str::trim`: drop whitespace from both ends. -/
def strTrim (s : List Char) : List Char :=
  (((s.dropWhile Char.isWhitespace).reverse).dropWhile Char.isWhitespace).reverse

/-- String literal viewed as a character list (kept as an applied constant so
rewriting does not normalize it away under case hypotheses). -/
def nameLit (s : String) : List Char := s.toList

/-- The literal "0" tested by the environment normalization. -/
def zeroLit : List Char := "0".toList

def Color.from_str (src : List Char) : Except Unit Color :=
  let t := strTrim (toLowercase src)
  if t = nameLit "black" then .ok .Black
  else if t = nameLit "red" then .ok .Red
  else if t = nameLit "green" then .ok .Green
  else if t = nameLit "yellow" then .ok .Yellow
  else if t = nameLit "blue" then .ok .Blue
  else if t = nameLit "magenta" ∨ t = nameLit "purple" then .ok .Magenta
  else if t = nameLit "cyan" then .ok .Cyan
  else if t = nameLit "white" then .ok .White
  else if t = nameLit "bright black" then .ok .BrightBlack
  else if t = nameLit "bright red" then .ok .BrightRed
  else if t = nameLit "bright green" then .ok .BrightGreen
  else if t = nameLit "bright yellow" then .ok .BrightYellow
  else if t = nameLit "bright blue" then .ok .BrightBlue
  else if t = nameLit "bright magenta" then .ok .BrightMagenta
  else if t = nameLit "bright cyan" then .ok .BrightCyan
  else if t = nameLit "bright white" then .ok .BrightWhite
  else .error ()

/-- The `From<&str> / From<String>` conversion: `src.parse().unwrap_or(White)`. -/
def Color.from_string (src : List Char) : Color :=
  match Color.from_str src with
  | .ok c => c
  | .error _ => .White

/-! ### src/control.rs -/

structure ShouldColorize where
  clicolor : Bool
  clicolor_force : Option Bool
  has_manual_override : Bool
  manual_override : Bool
  deriving DecidableEq

def ShouldColorize.default : ShouldColorize :=
  { clicolor := true
    clicolor_force := none
    has_manual_override := false
    manual_override := false }

def ShouldColorize.should_colorize (s : ShouldColorize) : Bool :=
  if s.has_manual_override then s.manual_override
  else
    match s.clicolor_force with
    | some forced_value => forced_value
    | none => s.clicolor

def ShouldColorize.set_override (s : ShouldColorize) (override_colorize : Bool) : ShouldColorize :=
  { s with has_manual_override := true, manual_override := override_colorize }

def ShouldColorize.unset_override (s : ShouldColorize) : ShouldColorize :=
  { s with has_manual_override := false }

/-- An absent or non-unicode environment variable is `none`. -/
def ShouldColorize.normalize_env (env_res : Option (List Char)) : Option Bool :=
  env_res.map (fun string => string != zeroLit)

def ShouldColorize.resolve_clicolor_force
    (no_color clicolor_force : Option (List Char)) : Option Bool :=
  if ShouldColorize.normalize_env clicolor_force == some true then some true
  else if (ShouldColorize.normalize_env no_color).isSome then some false
  else none

/-- The environment (three variables) and the result of the stdout tty check
are passed explicitly instead of being read from the process. -/
def ShouldColorize.from_env (clicolor_env no_color_env clicolor_force_env : Option (List Char))
    (stdout_is_tty : Bool) : ShouldColorize :=
  { ShouldColorize.default with
    clicolor := (ShouldColorize.normalize_env clicolor_env).getD true && stdout_is_tty
    clicolor_force :=
      ShouldColorize.resolve_clicolor_force no_color_env clicolor_force_env }

/-! ### src/lib.rs -/

structure ColoredString where
  input : List Char
  fgcolor : Option Color
  bgcolor : Option Color
  style : Style
  deriving DecidableEq

def ColoredString.default : ColoredString :=
  { input := [], fgcolor := none, bgcolor := none, style := CLEAR }

/-- The `From<&str>` conversion for `ColoredString`. -/
def ColoredString.from_str (s : List Char) : ColoredString :=
  { ColoredString.default with input := s }

def ColoredString.is_plain (cs : ColoredString) : Bool :=
  cs.bgcolor.isNone && cs.fgcolor.isNone && cs.style == CLEAR

/-- The escape character `\x1B`. -/
def escChar : Char := Char.ofNat 27

/-- The literal reset sequence `\x1B[0m`. -/
def resetSeq : List Char := [escChar, '[', '0', 'm']

/-- `ColoredString::compute_style`; `colorize` stands for `has_colors()`. -/
def ColoredString.compute_style (colorize : Bool) (cs : ColoredString) : List Char :=
  if !colorize || cs.is_plain then []
  else
    let res := [escChar, '[']
    let st :=
      if cs.style == CLEAR then (res, false)
      else (res ++ cs.style.to_str, true)
    let st :=
      match cs.bgcolor with
      | some bgcolor => ((if st.2 then st.1 ++ [';'] else st.1) ++ bgcolor.to_bg_str, true)
      | none => st
    let res :=
      match cs.fgcolor with
      | some fgcolor => (if st.2 then st.1 ++ [';'] else st.1) ++ fgcolor.to_fg_str
      | none => st.1
    res ++ ['m']

/-- Rust `str::match_indices` specialised to the reset pattern: the start
offsets of the non-overlapping, left-to-right occurrences of `resetSeq`,
scanning with absolute position `i`.  When the pattern (of length 4) matches,
the tail necessarily has the three further characters the inner match
destructures, so its fallback arm is unreachable. -/
def matchIndicesReset : List Char → Nat → List Nat
  | [], _ => []
  | c :: cs, i =>
    if resetSeq.isPrefixOf (c :: cs) then
      match cs with
      | _ :: _ :: _ :: rest => i :: matchIndicesReset rest (i + 4)
      | _ => []
    else matchIndicesReset cs (i + 1)

/-- Inserting the characters of `ins` one by one at successive offsets
(`input.insert(offset, cchar); offset += 1`) splices `ins` in at `offset`. -/
def insertStrAt (s : List Char) (offset : Nat) (ins : List Char) : List Char :=
  s.take offset ++ ins ++ s.drop offset

/-- The insertion loop of `escape_inner_reset_sequences`:
`offset + reset.len() + idx_in_matches * style.len()` is the insertion point
for the `idx_in_matches`-th match found at original offset `offset`. -/
def insertLoop (style : List Char) : List Nat → Nat → List Char → List Char
  | [], _, input => input
  | offset :: ms, idx_in_matches, input =>
      insertLoop style ms (idx_in_matches + 1)
        (insertStrAt input (offset + resetSeq.length + idx_in_matches * style.length) style)

def ColoredString.escape_inner_reset_sequences (colorize : Bool) (cs : ColoredString) :
    List Char :=
  if !colorize || cs.is_plain then cs.input
  else
    let style := cs.compute_style colorize
    let found := matchIndicesReset cs.input 0
    if found.isEmpty then cs.input
    else insertLoop style found 0 cs.input

/-- The `Display` implementation; `colorize` stands for `has_colors()`. -/
def ColoredString.render (colorize : Bool) (cs : ColoredString) : List Char :=
  if !colorize || cs.is_plain then cs.input
  else cs.compute_style colorize ++ cs.escape_inner_reset_sequences colorize ++ resetSeq

def ColoredString.color (cs : ColoredString) (color : Color) : ColoredString :=
  { cs with fgcolor := some color }

def ColoredString.on_color (cs : ColoredString) (color : Color) : ColoredString :=
  { cs with bgcolor := some color }

def ColoredString.clear (cs : ColoredString) : ColoredString :=
  { ColoredString.default with input := cs.input }

def ColoredString.bold (cs : ColoredString) : ColoredString :=
  { cs with style := cs.style.add .Bold }

def ColoredString.dimmed (cs : ColoredString) : ColoredString :=
  { cs with style := cs.style.add .Dimmed }

def ColoredString.italic (cs : ColoredString) : ColoredString :=
  { cs with style := cs.style.add .Italic }

def ColoredString.underline (cs : ColoredString) : ColoredString :=
  { cs with style := cs.style.add .Underline }

def ColoredString.blink (cs : ColoredString) : ColoredString :=
  { cs with style := cs.style.add .Blink }

def ColoredString.reversed (cs : ColoredString) : ColoredString :=
  { cs with style := cs.style.add .Reversed }

def ColoredString.hidden (cs : ColoredString) : ColoredString :=
  { cs with style := cs.style.add .Hidden }

def ColoredString.strikethrough (cs : ColoredString) : ColoredString :=
  { cs with style := cs.style.add .Strikethrough }

/-- Trait default method `blue()`. -/
def ColoredString.blue (cs : ColoredString) : ColoredString := cs.color .Blue

/-- Trait default method `on_blue()`. -/
def ColoredString.on_blue (cs : ColoredString) : ColoredString := cs.on_color .Blue

/-! ### Specification-level definitions

These definitions transcribe the specification's wording (not the source) and
are compared with the source-derived functions above. -/

/-- Modelled from the spec: scan the input left to right; after every
non-overlapping occurrence of the reset sequence, insert the outer style
string immediately after it; all other characters are kept unchanged.  As in
`matchIndicesReset`, a successful 4-character prefix match forces the shape
the inner match destructures. -/
def escapeSpec (style : List Char) : List Char → List Char
  | [] => []
  | c :: cs =>
    if resetSeq.isPrefixOf (c :: cs) then
      match cs with
      | _ :: _ :: _ :: rest => resetSeq ++ style ++ escapeSpec style rest
      | _ => c :: cs
    else c :: escapeSpec style cs

/-- Modelled from the spec: the ordered subset of the set attributes' codes
(Bold=1, Dimmed=2, Italic=3, Underline=4, Blink=5, Reversed=7, Hidden=8,
Strikethrough=9), emitted in the fixed order Bold, Dimmed, Underline,
Reversed, Italic, Blink, Hidden, Strikethrough, joined by a semicolon. -/
def paramListSpec (s : Style) : List Char :=
  List.intercalate [';']
    ((if s.contains .Bold then [Styles.to_str .Bold] else []) ++
     (if s.contains .Dimmed then [Styles.to_str .Dimmed] else []) ++
     (if s.contains .Underline then [Styles.to_str .Underline] else []) ++
     (if s.contains .Reversed then [Styles.to_str .Reversed] else []) ++
     (if s.contains .Italic then [Styles.to_str .Italic] else []) ++
     (if s.contains .Blink then [Styles.to_str .Blink] else []) ++
     (if s.contains .Hidden then [Styles.to_str .Hidden] else []) ++
     (if s.contains .Strikethrough then [Styles.to_str .Strikethrough] else []))

/-- Modelled from the spec: empty when not colorizing or plain, otherwise the
escape introducer, then the attribute parameter list (if any), the background
parameter (if set) and the foreground parameter (if set), in that order,
joined by semicolons, terminated by `m`. -/
def computeStyleSpec (colorize : Bool) (cs : ColoredString) : List Char :=
  if !colorize || cs.is_plain then []
  else
    let attrs := paramListSpec cs.style
    let parts :=
      (if attrs.isEmpty then [] else [attrs]) ++
      (match cs.bgcolor with
       | some bg => [bg.to_bg_str]
       | none => []) ++
      (match cs.fgcolor with
       | some fg => [fg.to_fg_str]
       | none => [])
    [escChar, '['] ++ List.intercalate [';'] parts ++ ['m']

/-- Modelled from the spec: the table of recognized color names. -/
def colorNames : List (List Char × Color) :=
  [(nameLit "black", .Black), (nameLit "red", .Red), (nameLit "green", .Green),
   (nameLit "yellow", .Yellow), (nameLit "blue", .Blue), (nameLit "magenta", .Magenta),
   (nameLit "purple", .Magenta), (nameLit "cyan", .Cyan), (nameLit "white", .White),
   (nameLit "bright black", .BrightBlack), (nameLit "bright red", .BrightRed),
   (nameLit "bright green", .BrightGreen), (nameLit "bright yellow", .BrightYellow),
   (nameLit "bright blue", .BrightBlue), (nameLit "bright magenta", .BrightMagenta),
   (nameLit "bright cyan", .BrightCyan), (nameLit "bright white", .BrightWhite)]

/-- Name lookup in an association table. -/
def lookupName (t : List Char) : List (List Char × Color) → Option Color
  | [] => none
  | (k, v) :: es => if t = k then some v else lookupName t es

/-- A lowercase hexadecimal digit character. -/
def isLowerHexDigit (ch : Char) : Bool :=
  (decide (48 ≤ ch.toNat) && decide (ch.toNat ≤ 57)) ||
  (decide (97 ≤ ch.toNat) && decide (ch.toNat ≤ 102))

/-! ### Helper lemmas for the reset-escaping equivalence -/

theorem resetSeq_split (c : Char) (cs : List Char)
    (h : resetSeq.isPrefixOf (c :: cs) = true) :
    ∃ rest, c :: cs = escChar :: '[' :: '0' :: 'm' :: rest := by
  have h2 := List.isPrefixOf_iff_prefix.mp h
  have h3 := List.prefix_iff_eq_append.mp h2
  exact ⟨(c :: cs).drop resetSeq.length, h3.symm⟩

theorem matchIndicesReset_neg (c : Char) (cs : List Char) (i : Nat)
    (h : ¬ resetSeq.isPrefixOf (c :: cs) = true) :
    matchIndicesReset (c :: cs) i = matchIndicesReset cs (i + 1) := by
  rw [matchIndicesReset.eq_def]
  dsimp only
  rw [if_neg h]

theorem matchIndicesReset_pos (c x y z : Char) (rest : List Char) (i : Nat)
    (h : resetSeq.isPrefixOf (c :: x :: y :: z :: rest) = true) :
    matchIndicesReset (c :: x :: y :: z :: rest) i = i :: matchIndicesReset rest (i + 4) := by
  rw [matchIndicesReset.eq_def]
  dsimp only
  rw [if_pos h]

theorem escapeSpec_neg (style : List Char) (c : Char) (cs : List Char)
    (h : ¬ resetSeq.isPrefixOf (c :: cs) = true) :
    escapeSpec style (c :: cs) = c :: escapeSpec style cs := by
  rw [escapeSpec.eq_def]
  dsimp only
  rw [if_neg h]

theorem escapeSpec_pos (style : List Char) (c x y z : Char) (rest : List Char)
    (h : resetSeq.isPrefixOf (c :: x :: y :: z :: rest) = true) :
    escapeSpec style (c :: x :: y :: z :: rest) = resetSeq ++ style ++ escapeSpec style rest := by
  rw [escapeSpec.eq_def]
  dsimp only
  rw [if_pos h]

theorem insertStrAt_append (p t ins : List Char) (n : Nat) :
    insertStrAt (p ++ t) (p.length + n) ins = p ++ insertStrAt t n ins := by
  simp [insertStrAt, List.take_append, List.drop_append]

theorem insertLoop_succ (style : List Char) (ms : List Nat) :
    ∀ (k : Nat) (input : List Char),
      insertLoop style ms (k + 1) input =
        insertLoop style (ms.map (· + style.length)) k input := by
  induction ms with
  | nil => intro k input; rfl
  | cons off ms ih =>
      intro k input
      simp only [insertLoop, List.map_cons]
      have hpos : off + resetSeq.length + (k + 1) * style.length =
          off + style.length + resetSeq.length + k * style.length := by ring
      rw [hpos]
      exact ih (k + 1) _

theorem insertLoop_append (style p : List Char) (ms : List Nat) :
    ∀ (k : Nat) (t : List Char),
      insertLoop style (ms.map (· + p.length)) k (p ++ t) =
        p ++ insertLoop style ms k t := by
  induction ms with
  | nil => intro k t; rfl
  | cons off ms ih =>
      intro k t
      simp only [insertLoop, List.map_cons]
      have hpos : off + p.length + resetSeq.length + k * style.length =
          p.length + (off + resetSeq.length + k * style.length) := by ring
      rw [hpos, insertStrAt_append]
      exact ih (k + 1) _

theorem matchIndicesReset_shift :
    ∀ (n : Nat) (s : List Char), s.length ≤ n → ∀ i : Nat,
      matchIndicesReset s i = (matchIndicesReset s 0).map (· + i) := by
  intro n
  induction n with
  | zero =>
      intro s hs i
      have hnil : s = [] := List.length_eq_zero.mp (Nat.le_zero.mp hs)
      subst hnil
      rfl
  | succ n ih =>
      intro s hs i
      cases s with
      | nil => rfl
      | cons c cs =>
        by_cases h : resetSeq.isPrefixOf (c :: cs) = true
        · obtain ⟨rest, heq⟩ := resetSeq_split c cs h
          rw [heq] at hs h ⊢
          have hlen : rest.length ≤ n := by
            simp only [List.length_cons] at hs
            omega
          rw [matchIndicesReset_pos escChar '[' '0' 'm' rest i h,
              matchIndicesReset_pos escChar '[' '0' 'm' rest 0 h,
              ih rest hlen (i + 4), ih rest hlen (0 + 4),
              List.map_cons, List.map_map]
          have hfun : ((fun x => x + i) ∘ fun x => x + (0 + 4)) = (fun x => x + (i + 4)) := by
            funext x
            simp only [Function.comp_apply]
            omega
          rw [hfun]
          simp
        · rw [matchIndicesReset_neg c cs i h, matchIndicesReset_neg c cs 0 h]
          have hlen : cs.length ≤ n := by
            simp only [List.length_cons] at hs
            omega
          rw [ih cs hlen (i + 1), ih cs hlen (0 + 1), List.map_map]
          have hfun : ((fun x => x + i) ∘ fun x => x + (0 + 1)) = (fun x => x + (i + 1)) := by
            funext x
            simp only [Function.comp_apply]
            omega
          rw [hfun]

theorem insertLoop_matches_eq_escapeSpec :
    ∀ (n : Nat) (s : List Char), s.length ≤ n → ∀ style : List Char,
      insertLoop style (matchIndicesReset s 0) 0 s = escapeSpec style s := by
  intro n
  induction n with
  | zero =>
      intro s hs style
      have hnil : s = [] := List.length_eq_zero.mp (Nat.le_zero.mp hs)
      subst hnil
      rfl
  | succ n ih =>
      intro s hs style
      cases s with
      | nil => rfl
      | cons c cs =>
        by_cases h : resetSeq.isPrefixOf (c :: cs) = true
        · obtain ⟨rest, heq⟩ := resetSeq_split c cs h
          rw [heq] at hs h ⊢
          have hlen : rest.length ≤ n := by
            simp only [List.length_cons] at hs
            omega
          rw [matchIndicesReset_pos escChar '[' '0' 'm' rest 0 h,
              escapeSpec_pos style escChar '[' '0' 'm' rest h,
              matchIndicesReset_shift n rest hlen 4]
          simp only [insertLoop]
          have hpos0 : 0 + resetSeq.length + 0 * style.length = 4 := by
            simp [resetSeq]
          rw [hpos0]
          have hins : insertStrAt (escChar :: '[' :: '0' :: 'm' :: rest) 4 style =
              (resetSeq ++ style) ++ rest := rfl
          rw [hins, insertLoop_succ, List.map_map]
          have hfun : ((fun x => x + style.length) ∘ fun x => x + 4) =
              (fun x => x + (resetSeq ++ style).length) := by
            funext x
            simp [resetSeq]
            omega
          rw [hfun, insertLoop_append style (resetSeq ++ style) _ 0 rest,
              ih rest hlen style]
        · rw [matchIndicesReset_neg c cs 0 h, escapeSpec_neg style c cs h]
          have hlen : cs.length ≤ n := by
            simp only [List.length_cons] at hs
            omega
          rw [matchIndicesReset_shift n cs hlen 1]
          have hone : (matchIndicesReset cs 0).map (· + 1) =
              (matchIndicesReset cs 0).map (· + ([c] : List Char).length) := rfl
          rw [hone]
          have happ : (c :: cs : List Char) = [c] ++ cs := rfl
          rw [happ, insertLoop_append style [c] _ 0 cs, ih cs hlen style]
          rfl

/-- Shared form of the reset-escaping equivalence, used by the claims about
escape_inner_reset_sequences and about rendering. -/
theorem escape_inner_eq_spec (colorize : Bool) (cs : ColoredString) :
    cs.escape_inner_reset_sequences colorize =
      if !colorize || cs.is_plain then cs.input
      else escapeSpec (cs.compute_style colorize) cs.input := by
  unfold ColoredString.escape_inner_reset_sequences
  cases hb : (!colorize || cs.is_plain) with
  | true => simp
  | false =>
      simp only [Bool.false_eq_true, if_false]
      by_cases hm : (matchIndicesReset cs.input 0).isEmpty = true
      · simp only [hm, if_true]
        have hmain := insertLoop_matches_eq_escapeSpec cs.input.length cs.input le_rfl
          (cs.compute_style colorize)
        rw [← hmain, List.isEmpty_iff.mp hm]
        rfl
      · simp only [hm, if_false]
        exact insertLoop_matches_eq_escapeSpec cs.input.length cs.input le_rfl _

/-! ### Theorems -/

/-- C1: with colorization enabled on a styled value,
escape_inner_reset_sequences inserts the full compute_style prefix right
after every non-overlapping left-to-right occurrence of the reset sequence
(insertion points advancing past prior insertions, which the spec-level
rewriter performs by construction); when not colorizing, or plain, or when
there is no occurrence, the input is returned unchanged. -/
theorem C1_escape_inner_reset_sequences (colorize : Bool) (cs : ColoredString) :
    cs.escape_inner_reset_sequences colorize =
      (if !colorize || cs.is_plain then cs.input
       else escapeSpec (cs.compute_style colorize) cs.input) ∧
    (matchIndicesReset cs.input 0 = [] →
      cs.escape_inner_reset_sequences colorize = cs.input) := by
  refine ⟨escape_inner_eq_spec colorize cs, fun hnone => ?_⟩
  rw [escape_inner_eq_spec colorize cs]
  cases hb : (!colorize || cs.is_plain) with
  | true => simp
  | false =>
      simp only [Bool.false_eq_true, if_false]
      have hmain := insertLoop_matches_eq_escapeSpec cs.input.length cs.input le_rfl
        (cs.compute_style colorize)
      rw [← hmain, hnone]
      rfl

/-- C2: rendering emits the input verbatim when not colorizing or plain, and
otherwise emits exactly compute_style, then the reset-escaped input (outer
style reinserted after each inner reset), then one trailing reset sequence. -/
theorem C2_render_shape (colorize : Bool) (cs : ColoredString) :
    cs.render colorize =
      if !colorize || cs.is_plain then cs.input
      else cs.compute_style colorize ++
        escapeSpec (cs.compute_style colorize) cs.input ++ resetSeq := by
  unfold ColoredString.render
  cases hb : (!colorize || cs.is_plain) with
  | true => simp
  | false =>
      simp only [Bool.false_eq_true, if_false]
      rw [escape_inner_eq_spec colorize cs, hb]
      simp

/-- C10: containment of Clear is the check `bits AND 0 = 0`, which holds for
every style value, styled or not. -/
theorem C10_contains_clear_always_true (s : Style) : s.contains Styles.Clear = true := by
  simp [Style.contains, Styles.to_u8, CLEARV, Nat.and_zero]

/-- C5: should_colorize resolves override first (a set and not-since-removed
override wins regardless of the other fields), then a present clicolor_force
decision, then clicolor; the default clicolor is true. -/
theorem C5_should_colorize_precedence (s : ShouldColorize) (b : Bool) :
    (s.set_override b).should_colorize = b ∧
    (s.unset_override).should_colorize = s.clicolor_force.getD s.clicolor ∧
    ((s.set_override b).unset_override).should_colorize = s.clicolor_force.getD s.clicolor ∧
    s.should_colorize =
      (if s.has_manual_override then s.manual_override
       else s.clicolor_force.getD s.clicolor) ∧
    ShouldColorize.default.clicolor = true ∧
    ShouldColorize.default.clicolor_force = none := by
  refine ⟨?_, ?_, ?_, ?_, rfl, rfl⟩ <;>
    cases hf : s.clicolor_force <;>
      simp [ShouldColorize.should_colorize, ShouldColorize.set_override,
        ShouldColorize.unset_override, hf]

/-- C9: style flags accumulate commutatively and idempotently through the
bitwise or of Style.add, so bold/italic in either order followed by a
background give equal values; color and on_color overwrite only their own
field, last write wins. -/
theorem C9_builder_composition (s : Style) (a b : Styles) (cs : ColoredString)
    (c c' : Color) :
    (s.add a).add b = (s.add b).add a ∧
    (s.add a).add a = s.add a ∧
    ((cs.bold).italic).on_color .Blue = ((cs.italic).bold).on_color .Blue ∧
    (cs.color c).color c' = cs.color c' ∧
    (cs.on_color c).on_color c' = cs.on_color c' ∧
    (cs.color c).bgcolor = cs.bgcolor ∧
    (cs.color c).style = cs.style ∧
    (cs.color c).input = cs.input ∧
    (cs.color c).fgcolor = some c ∧
    (cs.on_color c).fgcolor = cs.fgcolor ∧
    (cs.on_color c).style = cs.style ∧
    (cs.on_color c).input = cs.input ∧
    (cs.on_color c).bgcolor = some c := by
  have hcomm : ∀ (t : Style) (x y : Styles), (t.add x).add y = (t.add y).add x := by
    intro t x y
    simp only [Style.add, Style.mk.injEq]
    rw [Nat.or_assoc, Nat.or_comm x.to_u8 y.to_u8, ← Nat.or_assoc]
  refine ⟨hcomm s a b, ?_, ?_, rfl, rfl, rfl, rfl, rfl, rfl, rfl, rfl, rfl, rfl⟩
  · simp only [Style.add, Style.mk.injEq]
    rw [Nat.or_assoc, Nat.or_self]
  · simp only [ColoredString.bold, ColoredString.italic, ColoredString.on_color]
    rw [hcomm cs.style .Bold .Italic]

theorem intercalate_one (a : List Char) : List.intercalate [';'] [a] = a := by
  simp [List.intercalate]

theorem intercalate_two (a b : List Char) :
    List.intercalate [';'] [a, b] = a ++ [';'] ++ b := by
  simp [List.intercalate, List.intersperse]

theorem intercalate_three (a b c : List Char) :
    List.intercalate [';'] [a, b, c] = a ++ [';'] ++ b ++ [';'] ++ c := by
  simp [List.intercalate, List.intersperse]

/-- For every representable style byte, the source's filter-based Style.to_str
agrees with the specification's fixed-order parameter list. -/
theorem to_str_eq_paramListSpec :
    ∀ b < 256, Style.to_str ⟨b⟩ = paramListSpec ⟨b⟩ := by decide

theorem paramListSpec_ne_empty :
    ∀ b < 256, b ≠ 0 → (paramListSpec ⟨b⟩).isEmpty = false := by decide

theorem paramListSpec_clear : paramListSpec CLEAR = [] := by decide

/-- C3: compute_style is empty when not colorizing or plain, and otherwise is
the escape introducer, the attribute parameter list (fixed order, semicolon
separated), then background, then foreground, then m — as transcribed from
the spec in computeStyleSpec. -/
theorem C3_compute_style_shape (colorize : Bool) (cs : ColoredString)
    (h : cs.style.bits < 256) :
    cs.compute_style colorize = computeStyleSpec colorize cs := by
  unfold ColoredString.compute_style computeStyleSpec
  cases hb : (!colorize || cs.is_plain) with
  | true => simp
  | false =>
      simp only [Bool.false_eq_true, if_false]
      have hstyle : Style.to_str cs.style = paramListSpec cs.style :=
        to_str_eq_paramListSpec cs.style.bits h
      rcases hbg : cs.bgcolor with _ | bg <;> rcases hfg : cs.fgcolor with _ | fg <;>
        by_cases hclear : cs.style = CLEAR
      · exfalso
        have hpl : cs.is_plain = true := by
          simp [ColoredString.is_plain, hbg, hfg, hclear]
        simp [hpl] at hb
      · have hbits : cs.style.bits ≠ 0 := fun h0 => hclear (congrArg Style.mk h0)
        have hne : (paramListSpec cs.style).isEmpty = false :=
          paramListSpec_ne_empty cs.style.bits h hbits
        simp [hbg, hfg, hclear, hstyle, hne, intercalate_one]
      · simp [hbg, hfg, hclear, paramListSpec_clear, intercalate_one]
      · have hbits : cs.style.bits ≠ 0 := fun h0 => hclear (congrArg Style.mk h0)
        have hne : (paramListSpec cs.style).isEmpty = false :=
          paramListSpec_ne_empty cs.style.bits h hbits
        simp [hbg, hfg, hclear, hstyle, hne, intercalate_two]
      · simp [hbg, hfg, hclear, paramListSpec_clear, intercalate_one]
      · have hbits : cs.style.bits ≠ 0 := fun h0 => hclear (congrArg Style.mk h0)
        have hne : (paramListSpec cs.style).isEmpty = false :=
          paramListSpec_ne_empty cs.style.bits h hbits
        simp [hbg, hfg, hclear, hstyle, hne, intercalate_two]
      · simp [hbg, hfg, hclear, paramListSpec_clear, intercalate_two]
      · have hbits : cs.style.bits ≠ 0 := fun h0 => hclear (congrArg Style.mk h0)
        have hne : (paramListSpec cs.style).isEmpty = false :=
          paramListSpec_ne_empty cs.style.bits h hbits
        simp [hbg, hfg, hclear, hstyle, hne, intercalate_three]

/-- C4 (code bug witness): on a 6-character input made of non-hexadecimal
characters, from_hex silently maps every such character to 0 (hex_val's
wildcard arm) and returns Ok(TrueColor 0 0 0) instead of the error its own
documentation promises. -/
theorem C4_from_hex_accepts_non_hex :
    Color.from_hex ("zzzzzz".toList) = .ok (.TrueColor 0 0 0) ∧
    Color.from_hex ("12345".toList) = .error ("12345".toList ++ INVALID_COLOR_MSG) := by
  constructor <;> rfl

/-- C6: clicolor is true exactly when CLICOLOR is absent or differs from the
literal 0 and stdout is a tty; clicolor_force resolves to force-true when
CLICOLOR_FORCE is set and not 0, else to force-false when NO_COLOR is set to
any value, else to unresolved. -/
theorem C6_env_resolution (cl nc cf : Option (List Char)) (tty : Bool) :
    ((ShouldColorize.from_env cl nc cf tty).clicolor = true ↔
      ((cl = none ∨ ∃ v, cl = some v ∧ v ≠ zeroLit) ∧ tty = true)) ∧
    ((ShouldColorize.from_env cl nc cf tty).clicolor_force = some true ↔
      (∃ v, cf = some v ∧ v ≠ zeroLit)) ∧
    ((ShouldColorize.from_env cl nc cf tty).clicolor_force = some false ↔
      (¬(∃ v, cf = some v ∧ v ≠ zeroLit) ∧ nc.isSome = true)) ∧
    ((ShouldColorize.from_env cl nc cf tty).clicolor_force = none ↔
      (¬(∃ v, cf = some v ∧ v ≠ zeroLit) ∧ nc = none)) := by
  refine ⟨?_, ?_, ?_, ?_⟩ <;>
    rcases cl with _ | v1 <;> rcases nc with _ | v2 <;> rcases cf with _ | v3 <;>
      simp [ShouldColorize.from_env, ShouldColorize.normalize_env,
        ShouldColorize.resolve_clicolor_force, ShouldColorize.default, bne_iff_ne] <;>
      first
        | tauto
        | (by_cases hv : v1 = zeroLit <;> simp [hv] <;> tauto)
        | (by_cases hv : v3 = zeroLit <;> simp [hv] <;> tauto)

theorem hexDigitChar_facts : ∀ d < 16, hexDigitChar d ≠ 'x' ∧ hexDigitChar d ≠ '#' ∧
    isLowerHexDigit (hexDigitChar d) = true := by decide

theorem hex_chars_roundtrip : ∀ x < 256,
    hex_chars_to_u8 (hexDigitChar (x / 16)) (hexDigitChar (x % 16)) = x := by decide

/-- C7: to_hex of a true color is a 6-character lowercase hex string, and
from_hex parses it back to the same color, bare or with a hash or 0x
introducer. -/
theorem C7_hex_roundtrip (r g b : Nat) (hr : r < 256) (hg : g < 256) (hb : b < 256) :
    (Color.to_hex (.TrueColor r g b)).length = 6 ∧
    (Color.to_hex (.TrueColor r g b)).all isLowerHexDigit = true ∧
    Color.from_hex (Color.to_hex (.TrueColor r g b)) = .ok (.TrueColor r g b) ∧
    Color.from_hex ('#' :: Color.to_hex (.TrueColor r g b)) = .ok (.TrueColor r g b) ∧
    Color.from_hex ('0' :: 'x' :: Color.to_hex (.TrueColor r g b)) = .ok (.TrueColor r g b) := by
  have hform : Color.to_hex (.TrueColor r g b) =
      [hexDigitChar (r / 16), hexDigitChar (r % 16), hexDigitChar (g / 16),
       hexDigitChar (g % 16), hexDigitChar (b / 16), hexDigitChar (b % 16)] := rfl
  have hr16 : r / 16 < 16 := Nat.div_lt_of_lt_mul (by omega)
  have hrm : r % 16 < 16 := Nat.mod_lt _ (by omega)
  have hg16 : g / 16 < 16 := Nat.div_lt_of_lt_mul (by omega)
  have hgm : g % 16 < 16 := Nat.mod_lt _ (by omega)
  have hb16 : b / 16 < 16 := Nat.div_lt_of_lt_mul (by omega)
  have hbm : b % 16 < 16 := Nat.mod_lt _ (by omega)
  have hx1 : ('x' == hexDigitChar (r % 16)) = false := by
    have hne := (hexDigitChar_facts (r % 16) hrm).1
    simp only [beq_eq_false_iff_ne]
    exact fun hh => hne hh.symm
  have hh1 : ('#' == hexDigitChar (r / 16)) = false := by
    have hne := (hexDigitChar_facts (r / 16) hr16).2.1
    simp only [beq_eq_false_iff_ne]
    exact fun hh => hne hh.symm
  refine ⟨by rw [hform]; rfl, ?_, ?_, ?_, ?_⟩
  · rw [hform]
    simp [List.all_cons, (hexDigitChar_facts _ hr16).2.2, (hexDigitChar_facts _ hrm).2.2,
      (hexDigitChar_facts _ hg16).2.2, (hexDigitChar_facts _ hgm).2.2,
      (hexDigitChar_facts _ hb16).2.2, (hexDigitChar_facts _ hbm).2.2]
  · rw [hform]
    have e1 : (['0', 'x'] : List Char).isPrefixOf
        [hexDigitChar (r / 16), hexDigitChar (r % 16), hexDigitChar (g / 16),
         hexDigitChar (g % 16), hexDigitChar (b / 16), hexDigitChar (b % 16)] = false := by
      simp [List.isPrefixOf, hx1]
    have e2 : (['#'] : List Char).isPrefixOf
        [hexDigitChar (r / 16), hexDigitChar (r % 16), hexDigitChar (g / 16),
         hexDigitChar (g % 16), hexDigitChar (b / 16), hexDigitChar (b % 16)] = false := by
      simp [List.isPrefixOf, hh1]
    simp [Color.from_hex, e1, e2, if_6, parse_hex, hex_chars_roundtrip r hr,
      hex_chars_roundtrip g hg, hex_chars_roundtrip b hb]
  · rw [hform]
    have c1 : ('0' == '#') = false := by decide
    have e1 : (['0', 'x'] : List Char).isPrefixOf
        ('#' :: [hexDigitChar (r / 16), hexDigitChar (r % 16), hexDigitChar (g / 16),
         hexDigitChar (g % 16), hexDigitChar (b / 16), hexDigitChar (b % 16)]) = false := by
      simp [List.isPrefixOf, c1]
    simp [Color.from_hex, e1, List.isPrefixOf, if_6, parse_hex, hex_chars_roundtrip r hr,
      hex_chars_roundtrip g hg, hex_chars_roundtrip b hb]
  · rw [hform]
    simp [Color.from_hex, List.isPrefixOf, if_6, parse_hex, hex_chars_roundtrip r hr,
      hex_chars_roundtrip g hg, hex_chars_roundtrip b hb]

/-- C8: the implicit string-to-Color conversion is total — a recognized
(lowercased, trimmed) name yields its variant and anything else yields White —
while the strict parse path returns an explicit failure for every
unrecognized name. -/
theorem C8_lenient_vs_strict (s : List Char) :
    (∀ c : Color, lookupName (strTrim (toLowercase s)) colorNames = some c →
      Color.from_str s = .ok c ∧ Color.from_string s = c) ∧
    (lookupName (strTrim (toLowercase s)) colorNames = none →
      Color.from_str s = .error () ∧ Color.from_string s = .White) := by
  by_cases h1 : strTrim (toLowercase s) = nameLit "black"
  · simp [Color.from_str, Color.from_string, lookupName, colorNames, nameLit, h1]
  by_cases h2 : strTrim (toLowercase s) = nameLit "red"
  · simp [Color.from_str, Color.from_string, lookupName, colorNames, nameLit, h1, h2]
  by_cases h3 : strTrim (toLowercase s) = nameLit "green"
  · simp [Color.from_str, Color.from_string, lookupName, colorNames, nameLit, h1, h2, h3]
  by_cases h4 : strTrim (toLowercase s) = nameLit "yellow"
  · simp [Color.from_str, Color.from_string, lookupName, colorNames, nameLit, h1, h2, h3, h4]
  by_cases h5 : strTrim (toLowercase s) = nameLit "blue"
  · simp [Color.from_str, Color.from_string, lookupName, colorNames, nameLit, h1, h2, h3, h4, h5]
  by_cases h6 : strTrim (toLowercase s) = nameLit "magenta"
  · simp [Color.from_str, Color.from_string, lookupName, colorNames, nameLit, h1, h2, h3, h4, h5, h6]
  by_cases h7 : strTrim (toLowercase s) = nameLit "purple"
  · simp [Color.from_str, Color.from_string, lookupName, colorNames, nameLit, h1, h2, h3, h4, h5, h6,
      h7]
  by_cases h8 : strTrim (toLowercase s) = nameLit "cyan"
  · simp [Color.from_str, Color.from_string, lookupName, colorNames, nameLit, h1, h2, h3, h4, h5, h6,
      h7, h8]
  by_cases h9 : strTrim (toLowercase s) = nameLit "white"
  · simp [Color.from_str, Color.from_string, lookupName, colorNames, nameLit, h1, h2, h3, h4, h5, h6,
      h7, h8, h9]
  by_cases h10 : strTrim (toLowercase s) = nameLit "bright black"
  · simp [Color.from_str, Color.from_string, lookupName, colorNames, nameLit, h1, h2, h3, h4, h5, h6,
      h7, h8, h9, h10]
  by_cases h11 : strTrim (toLowercase s) = nameLit "bright red"
  · simp [Color.from_str, Color.from_string, lookupName, colorNames, nameLit, h1, h2, h3, h4, h5, h6,
      h7, h8, h9, h10, h11]
  by_cases h12 : strTrim (toLowercase s) = nameLit "bright green"
  · simp [Color.from_str, Color.from_string, lookupName, colorNames, nameLit, h1, h2, h3, h4, h5, h6,
      h7, h8, h9, h10, h11, h12]
  by_cases h13 : strTrim (toLowercase s) = nameLit "bright yellow"
  · simp [Color.from_str, Color.from_string, lookupName, colorNames, nameLit, h1, h2, h3, h4, h5, h6,
      h7, h8, h9, h10, h11, h12, h13]
  by_cases h14 : strTrim (toLowercase s) = nameLit "bright blue"
  · simp [Color.from_str, Color.from_string, lookupName, colorNames, nameLit, h1, h2, h3, h4, h5, h6,
      h7, h8, h9, h10, h11, h12, h13, h14]
  by_cases h15 : strTrim (toLowercase s) = nameLit "bright magenta"
  · simp [Color.from_str, Color.from_string, lookupName, colorNames, nameLit, h1, h2, h3, h4, h5, h6,
      h7, h8, h9, h10, h11, h12, h13, h14, h15]
  by_cases h16 : strTrim (toLowercase s) = nameLit "bright cyan"
  · simp [Color.from_str, Color.from_string, lookupName, colorNames, nameLit, h1, h2, h3, h4, h5, h6,
      h7, h8, h9, h10, h11, h12, h13, h14, h15, h16]
  by_cases h17 : strTrim (toLowercase s) = nameLit "bright white"
  · simp [Color.from_str, Color.from_string, lookupName, colorNames, nameLit, h1, h2, h3, h4, h5, h6,
      h7, h8, h9, h10, h11, h12, h13, h14, h15, h16, h17]
  · simp [Color.from_str, Color.from_string, lookupName, colorNames, h1, h2, h3, h4, h5, h6,
      h7, h8, h9, h10, h11, h12, h13, h14, h15, h16, h17]

/-! ### Witness instances -/

theorem C1_escape_inner_reset_sequences_witness :
    matchIndicesReset ("ab".toList) 0 = [] ∧
    ((ColoredString.from_str ("ab".toList)).color Color.Red).escape_inner_reset_sequences
      true = "ab".toList :=
  ⟨by decide, (C1_escape_inner_reset_sequences true
    ((ColoredString.from_str ("ab".toList)).color Color.Red)).2 (by decide)⟩

theorem C3_compute_style_shape_witness :
    ((ColoredString.from_str []).blue).style.bits < 256 ∧
    ((ColoredString.from_str []).blue).compute_style true = [escChar, '[', '3', '4', 'm'] ∧
    (((ColoredString.from_str []).blue).on_blue).compute_style true =
      [escChar, '[', '4', '4', ';', '3', '4', 'm'] ∧
    (((ColoredString.from_str []).blue).bold).compute_style true =
      [escChar, '[', '1', ';', '3', '4', 'm'] :=
  ⟨by decide,
   (C3_compute_style_shape true ((ColoredString.from_str []).blue) (by decide)).trans
     (by decide),
   (C3_compute_style_shape true (((ColoredString.from_str []).blue).on_blue) (by decide)).trans
     (by decide),
   (C3_compute_style_shape true (((ColoredString.from_str []).blue).bold) (by decide)).trans
     (by decide)⟩

theorem C7_hex_roundtrip_witness :
    (1 : Nat) < 256 ∧ (2 : Nat) < 256 ∧ (3 : Nat) < 256 ∧
    Color.from_hex (Color.to_hex (.TrueColor 1 2 3)) = .ok (.TrueColor 1 2 3) :=
  ⟨by decide, by decide, by decide,
   (C7_hex_roundtrip 1 2 3 (by decide) (by decide) (by decide)).2.2.1⟩

theorem C8_lenient_vs_strict_witness :
    Color.from_str ("blue".toList) = .ok Color.Blue ∧
    Color.from_string ("blue".toList) = Color.Blue :=
  (C8_lenient_vs_strict ("blue".toList)).1 Color.Blue (by decide)

end Colored
